import Mathlib

/-!
Verification of the mrcal seed-estimation pipeline (`mrcal/calibration.py`).

The development shallowly embeds the seed-estimation core:
  * `estimate_monocular_calobject_poses_Rt_tocam` (per-observation PnP solve
    with the behind-camera retry),
  * `_estimate_camera_poses` (connectivity matrix, pairwise relative poses,
    Dijkstra shortest-path propagation to the reference camera),
  * the frame-pose consolidator `Rt_ref_frame` of `estimate_joint_frame_poses`.

Real-number pixel/3D data is embedded over `ℚ` (exact arithmetic, decidable
equality).  External capabilities the source calls but whose code is not part
of the sources under verification (cv2.solvePnP, the lens projection
functions, the Procrustes alignment primitive, the rotation-vector
conversion) are abstracted as parameters, constrained only by what the
specification states about them; each such definition carries a
`Modelled from the spec:` doc comment.
-/

namespace MrcalSeed

/-- A 3D point / vector with rational coordinates. -/
structure V3 where
  x : ℚ
  y : ℚ
  z : ℚ
deriving DecidableEq, Repr

instance : Add V3 := ⟨fun a b => ⟨a.x + b.x, a.y + b.y, a.z + b.z⟩⟩

instance : Neg V3 := ⟨fun a => ⟨-a.x, -a.y, -a.z⟩⟩

instance : Zero V3 := ⟨⟨0, 0, 0⟩⟩

/-- Scale a vector by a rational. -/
def V3.scale (c : ℚ) (v : V3) : V3 := ⟨c * v.x, c * v.y, c * v.z⟩

/-- A 3×3 matrix with rational entries, row-major. -/
structure Mat3 where
  m00 : ℚ
  m01 : ℚ
  m02 : ℚ
  m10 : ℚ
  m11 : ℚ
  m12 : ℚ
  m20 : ℚ
  m21 : ℚ
  m22 : ℚ
deriving DecidableEq, Repr

/-- The identity matrix. -/
def Mat3.id : Mat3 := ⟨1, 0, 0, 0, 1, 0, 0, 0, 1⟩

/-- Matrix transpose. -/
def Mat3.transpose (a : Mat3) : Mat3 :=
  ⟨a.m00, a.m10, a.m20, a.m01, a.m11, a.m21, a.m02, a.m12, a.m22⟩

/-- Matrix product. -/
def Mat3.mul (a b : Mat3) : Mat3 :=
  ⟨a.m00 * b.m00 + a.m01 * b.m10 + a.m02 * b.m20,
   a.m00 * b.m01 + a.m01 * b.m11 + a.m02 * b.m21,
   a.m00 * b.m02 + a.m01 * b.m12 + a.m02 * b.m22,
   a.m10 * b.m00 + a.m11 * b.m10 + a.m12 * b.m20,
   a.m10 * b.m01 + a.m11 * b.m11 + a.m12 * b.m21,
   a.m10 * b.m02 + a.m11 * b.m12 + a.m12 * b.m22,
   a.m20 * b.m00 + a.m21 * b.m10 + a.m22 * b.m20,
   a.m20 * b.m01 + a.m21 * b.m11 + a.m22 * b.m21,
   a.m20 * b.m02 + a.m21 * b.m12 + a.m22 * b.m22⟩

/-- Matrix-vector product. -/
def Mat3.mulVec (a : Mat3) (v : V3) : V3 :=
  ⟨a.m00 * v.x + a.m01 * v.y + a.m02 * v.z,
   a.m10 * v.x + a.m11 * v.y + a.m12 * v.z,
   a.m20 * v.x + a.m21 * v.y + a.m22 * v.z⟩

/-- Predicate: `M` is a rotation in the sense needed here: its transpose is a right
inverse.  The spec's Rigid Alignment primitive (§4.1) and every pose it
produces carry such a rotation. -/
def Mat3.IsOrtho (a : Mat3) : Prop := a.mul a.transpose = Mat3.id

instance (a : Mat3) : Decidable a.IsOrtho := by
  unfold Mat3.IsOrtho; infer_instance

/-- A rigid pose `Rt`: rotation plus translation, mapping `p ↦ R p + t`.
Mirrors the source's (4,3) `Rt` arrays whose first three rows are `R` and
whose last row is `t`. -/
structure Rt where
  R : Mat3
  t : V3
deriving DecidableEq, Repr

/-- The identity pose. -/
def Rt.id : Rt := ⟨Mat3.id, 0⟩

/-- Modelled from the spec: `mrcal.compose_Rt` (repository code not under
`src/`).  §3: composition of rigid poses is defined algebraically by matrix
composition: `(compose_Rt A B) p = A (B p)`. -/
def compose_Rt (a b : Rt) : Rt := ⟨a.R.mul b.R, a.R.mulVec b.t + a.t⟩

/-- Modelled from the spec: `mrcal.invert_Rt` (repository code not under
`src/`).  §3: inversion is the algebraic matrix inverse; for a rotation the
inverse of `R` is its transpose, so `invert_Rt ⟨R,t⟩ = ⟨Rᵀ, -Rᵀ t⟩`. -/
def invert_Rt (a : Rt) : Rt := ⟨a.R.transpose, -(a.R.transpose.mulVec a.t)⟩

/-- Modelled from the spec: `mrcal.transform_point_Rt` (repository code not
under `src/`): apply a rigid pose to a point. -/
def transform_point_Rt (a : Rt) (p : V3) : V3 := a.R.mulVec p + a.t

/-- Modelled from the spec: `mrcal.ref_calibration_object` (repository code
not under `src/`).  §3: "a known, fixed planar grid of 3D points in the
target's own coordinate frame (regular spacing, shape = grid
height × width)".  Returned flattened row-major (the source's
`nps.clump(·, n=2)` of the (H,W,3) grid). -/
def ref_calibration_object (object_width_n object_height_n : Nat) (spacing : ℚ) : List V3 :=
  (List.range object_height_n).flatMap fun i =>
    (List.range object_width_n).map fun j =>
      ⟨(j : ℚ) * spacing, (i : ℚ) * spacing, 0⟩

/-- Modelled from the spec: `mrcal.align_procrustes_points_Rt01` (§4.1, the
Rigid Alignment primitive; repository code not under `src/`).  We abstract it
as an arbitrary function of the two point clouds; the claims proved here use
at most that the rotation it returns is orthonormal, which is supplied as a
hypothesis where needed. -/
abbrev Procrustes := List V3 → List V3 → Rt

/-- The error kinds of the embedded pipeline.  The source raises generic
Python exceptions; each constructor corresponds to one `raise`/`assert` site
(named after the spec's §7 error kinds where one applies). -/
inductive CalErr where
  /-- "this currently works only with models that have an fxfycxcy core" -/
  | unsupportedLensModel : CalErr
  /-- "solvePnP failed!" (the external solver reported failure) -/
  | solvePnPFailed : CalErr
  /-- "retried solvePnP failed!" -/
  | retriedSolvePnPFailed : CalErr
  /-- "retried solvePnP says that tvec.z <= 0" (spec: `PoseBehindCamera`) -/
  | poseBehindCamera : CalErr
  /-- "Got icam_to == icam_from" -/
  | sameCamera (icam : Nat) : CalErr
  /-- "Saw multiple camera{icam} observations in frame {iframe}"
      (spec: `ConflictingObservation`) -/
  | conflictingObservation (icam : Nat) (iframe : Int) : CalErr
  /-- "I'm assuming the frame indices are increasing monotonically" -/
  | nonMonotonicFrames : CalErr
  /-- the `assert(cost > 0)` in `Node.compute_edge_cost` -/
  | assertionFailed : CalErr
  /-- "ERROR: Don't have complete camera observations overlap!" together
      with the shared-observations matrix and the partial `Rt_0c` list the
      source formats into the message (spec: `DisconnectedCameraNetwork`) -/
  | disconnectedCameraNetwork (shared : List (List Nat)) (Rt_0c : List (Option Rt)) : CalErr
deriving DecidableEq

/-- Returns `true` exactly on `Except.ok`. -/
def exOk {ε α : Type} : Except ε α → Bool
  | .ok _ => true
  | .error _ => false

/-! ## Monocular pose estimator
(`estimate_monocular_calobject_poses_Rt_tocam`, calibration.py lines 383-584). -/

/-- One entry of the observation tensor: pixel coordinates and weight. -/
structure ObsPt where
  x : ℚ
  y : ℚ
  w : ℚ
deriving DecidableEq, Repr

/-- One board observation: an `object_height_n × object_width_n` grid of
observation points, as in the source's `(Nh,Nw,3)` slices. -/
abbrev Grid := List (List ObsPt)

/-- Modelled from the spec: one camera of `models_or_intrinsics`.  The lens
model metadata, the first four ("core") intrinsic values, and the §4.2 Lens
Normalizer (`mrcal.unproject` under the true lens followed by
`mrcal.project` under `LENSMODEL_PINHOLE` — repository code not under
`src/`) are abstracted: `normalize` maps a pixel observation to the pixel an
idealized pinhole lens would have produced. -/
structure Camera where
  hasCore : Bool
  fx : ℚ
  fy : ℚ
  cx : ℚ
  cy : ℚ
  normalize : ℚ × ℚ → ℚ × ℚ

/-- A camera with identity data, used as the out-of-range default of list
lookups that the source performs by in-range numpy indexing. -/
def Camera.dummy : Camera := ⟨true, 1, 1, 0, 0, fun q => q⟩

/-- The `camera_matrix` the source builds from `fx,fy,cx,cy`. -/
def camera_matrix (cam : Camera) : Mat3 :=
  ⟨cam.fx, 0, cam.cx, 0, cam.fy, cam.cy, 0, 0, 1⟩

/-- Modelled from the spec: the external perspective-pose solver
(`cv2.solvePnP`; §1 treats it as a library capability, not code under
verification).  `solve` is the guess-free call and `solveGuess` the
`useExtrinsicGuess=True` call; both return `none` when the solver reports
failure and otherwise a rotation-vector/translation pair.  The spec (§4.3)
requires at least 4 valid points ("fails with `InsufficientPoints` if fewer
than 4 remain"), so the model makes the solver fail on fewer than 4
points; its behaviour elsewhere is unconstrained. -/
structure PnPSolver where
  solve : List (ℚ × ℚ) → List V3 → Mat3 → Option (V3 × V3)
  solveGuess : List (ℚ × ℚ) → List V3 → Mat3 → V3 → V3 → Option (V3 × V3)
  solve_insufficient : ∀ obs ref K, obs.length < 4 → solve obs ref K = none

/-- Modelled from the spec: `mrcal.Rt_from_rt` (repository code not under
`src/`).  §3: the `rt` and `Rt` encodings are losslessly interconvertible;
the rotation-vector → rotation-matrix map is abstracted as a parameter
`R_of_r`, and the translation is carried over unchanged. -/
def Rt_from_rt (R_of_r : V3 → Mat3) (rvec tvec : V3) : Rt := ⟨R_of_r rvec, tvec⟩

/-- The caller-owned parallel arrays handed to
`estimate_monocular_calobject_poses_Rt_tocam`. -/
structure CallerArrays where
  indices_frame_camera : List (Int × Nat)
  observations : List Grid
deriving Repr

/-- The pinhole-reprojection loop (lines 505-512): for every observation
point, overwrite the pixel coordinates (columns `:2`) with their pinhole
reprojection; the weight column is not written. -/
def normalize_observation (cam : Camera) (g : Grid) : Grid :=
  g.map fun row =>
    row.map fun pt =>
      let q := cam.normalize (pt.x, pt.y)
      ⟨q.1, q.2, pt.w⟩

/-- Lines 530-543: glue the observation grid to the calibration-object grid,
clump to a flat list, and keep the rows whose observation is valid
(`d[...,0] >= 0`, `d[...,1] >= 0`, `d[...,2] >= 0`). -/
def valid_points (g : Grid) (full_object : List V3) : List (ObsPt × V3) :=
  (g.flatten.zip full_object).filter fun q =>
    decide (0 ≤ q.1.x ∧ 0 ≤ q.1.y ∧ 0 ≤ q.1.w)

/-- The (2D observations, 3D reference points, camera matrix) triple passed
to the solver (lines 545-550): the valid rows' pixel columns, their object
columns, and the camera matrix. -/
def pnp_inputs (cam : Camera) (g : Grid) (full_object : List V3) :
    List (ℚ × ℚ) × List V3 × Mat3 :=
  let d := valid_points g full_object
  (d.map fun q => (q.1.x, q.1.y), d.map fun q => q.2, camera_matrix cam)

/-- The per-observation solve of lines 545-568: call the solver; if the
recovered translation has `tvec[2] <= 0` (object behind the camera), solve
once more with the first solution's rotation and the negated translation as
the extrinsic guess; if the retried translation still has `tvec[2] <= 0`,
fail ("retried solvePnP says that tvec.z <= 0"). -/
def solve_one_pose (S : PnPSolver) (R_of_r : V3 → Mat3) (cam : Camera) (g : Grid)
    (full_object : List V3) : Except CalErr Rt :=
  let inp := pnp_inputs cam g full_object
  match S.solve inp.1 inp.2.1 inp.2.2 with
  | none => throw .solvePnPFailed
  | some (rvec, tvec) =>
    if tvec.z ≤ 0 then
      match S.solveGuess inp.1 inp.2.1 inp.2.2 rvec (-tvec) with
      | none => throw .retriedSolvePnPFailed
      | some (rvec2, tvec2) =>
        if tvec2.z ≤ 0 then throw .poseBehindCamera
        else pure (Rt_from_rt R_of_r rvec2 tvec2)
    else pure (Rt_from_rt R_of_r rvec tvec)

/-- The copy-and-reproject step (lines 504-512): `observations.copy()`
followed by the per-observation pinhole reprojection of the pixel columns,
camera by camera. -/
def normalized_observations (cams : List Camera) (a : CallerArrays) : List Grid :=
  (a.indices_frame_camera.zip a.observations).map fun q =>
    normalize_observation (cams.getD q.1.2 Camera.dummy) q.2

/-- Lines 518-521: read `object_height_n, object_width_n` off the
observation-array shape and build the calibration-object grid. -/
def monocular_full_object (object_spacing : ℚ) (observations : List Grid) : List V3 :=
  ref_calibration_object ((observations.headD []).headD []).length
    (observations.headD []).length object_spacing

/-- Embedding of `estimate_monocular_calobject_poses_Rt_tocam` (lines 383-584).  Checks
that every lens model has an intrinsics core, copies the observations array
(`observations = observations.copy()`, line 504) and reprojects the copy's
pixel coordinates to a pinhole model, then solves one pose per observation.
The function returns, alongside the `Except` result, the arrays as the
caller sees them after the call: because the reprojection writes into the
copy, those are the input arrays themselves. -/
def estimate_monocular_calobject_poses_Rt_tocam (S : PnPSolver) (R_of_r : V3 → Mat3)
    (cams : List Camera) (object_spacing : ℚ) (a : CallerArrays) :
    Except CalErr (List Rt) × CallerArrays :=
  let res : Except CalErr (List Rt) :=
    if ¬ (cams.all fun c => c.hasCore) then .error .unsupportedLensModel
    else
      let observations := normalized_observations cams a
      let full_object := monocular_full_object object_spacing observations
      (a.indices_frame_camera.zip observations).mapM fun q =>
        solve_one_pose S R_of_r (cams.getD q.1.2 Camera.dummy) q.2 full_object
  (res, a)

/-! ## Camera network pose solver
(`_estimate_camera_poses`, calibration.py lines 587-853). -/

/-- The per-frame scan state of `compute_pairwise_Rt`'s observation loop
(lines 659-729): the frame index currently being scanned, the destination
and source cameras' local poses seen in that frame so far, and the two
accumulated point clouds `A`, `B`.  (The source also keeps the pixel arrays
`d0`/`d1`, which it glues into a strictly dead local `d`; they play no part
in the result and are not carried here.) -/
structure PairState where
  iframe_last : Int
  Rt0 : Option Rt
  Rt1 : Option Rt
  A : List V3
  B : List V3
deriving Repr

/-- One step of the `compute_pairwise_Rt` observation loop, for the entry
`((iframe, icam), local pose)`.  On a frame change the per-frame state is
reset.  A second `icam_to` observation in one frame, or a second `icam_from`
observation after a pair was formed, raises "Saw multiple camera{}
observations in frame {}"; an `icam_from` observation with no `icam_to` seen
yet in the frame is skipped.  When a pair is formed, the full calibration
object transformed through each camera's local pose is appended to `A`/`B`. -/
def pairwise_step (full_object : List V3) (icam_to icam_from : Nat)
    (st : PairState) (e : (Int × Nat) × Rt) : Except CalErr PairState :=
  let f := e.1.1
  let c := e.1.2
  let pose := e.2
  let st := if f ≠ st.iframe_last then
    { iframe_last := f, Rt0 := none, Rt1 := none, A := st.A, B := st.B }
  else st
  if c = icam_to then
    if st.Rt0.isSome then throw (.conflictingObservation c f)
    else pure { st with Rt0 := some pose }
  else if c = icam_from then
    match st.Rt0 with
    | none => pure st  -- have an icam_from observation, but no icam_to one
    | some Rt0 =>
      if st.Rt1.isSome then throw (.conflictingObservation c f)
      else pure { st with
        Rt1 := some pose,
        A := st.A ++ full_object.map (transform_point_Rt Rt0),
        B := st.B ++ full_object.map (transform_point_Rt pose) }
  else pure st

/-- The `icam_to < icam_from` branch of `compute_pairwise_Rt`: scan the
observation list collecting corresponding point clouds from the frames both
cameras observed, then fit with the Rigid Alignment primitive
(`mrcal.align_procrustes_points_Rt01(A, B)`, line 731). -/
def pairwise_direct (p : Procrustes) (full_object : List V3) (icam_to icam_from : Nat)
    (entries : List ((Int × Nat) × Rt)) : Except CalErr Rt := do
  let st ← entries.foldlM (pairwise_step full_object icam_to icam_from)
    ⟨-1, none, none, [], []⟩
  pure (p st.A st.B)

/-- Embedding of `compute_pairwise_Rt(icam_to, icam_from)` (lines 630-731): if
`icam_to > icam_from`, compute the opposite transform and invert it; if the
indices coincide, raise; otherwise run the direct scan over the
observation/pose parallel arrays. -/
def compute_pairwise_Rt (p : Procrustes) (poses : List Rt) (idx : List (Int × Nat))
    (full_object : List V3) (icam_to icam_from : Nat) : Except CalErr Rt :=
  if _h : icam_from < icam_to then
    (compute_pairwise_Rt p poses idx full_object icam_from icam_to).map invert_Rt
  else if icam_to = icam_from then throw (.sameCamera icam_to)
  else pairwise_direct p full_object icam_to icam_from (idx.zip poses)
termination_by icam_to

/-- The symmetric camera-connectivity matrix, as a list of rows. -/
abbrev ConnMat := List (List Nat)

/-- Increment entry `(i, j)` of the matrix (`camera_connectivity[a,b] += 1`). -/
def bump (m : ConnMat) (i j : Nat) : ConnMat :=
  m.set i ((m.getD i []).set j ((m.getD i []).getD j 0 + 1))

/-- Embedding of `finish_frame(i0, i1)` of `compute_connectivity_matrix` (lines 744-748):
for every pair of observation positions `i0 ≤ ic0 < ic1 ≤ i1`, increment the
co-occurrence count of the corresponding camera pair, symmetrically. -/
def finish_frame (idx : List (Int × Nat)) (m : ConnMat) (i0 i1 : Nat) : ConnMat :=
  (List.range' i0 (i1 - i0)).foldl
    (fun m ic0 =>
      (List.range' (ic0 + 1) (i1 - ic0)).foldl
        (fun m ic1 =>
          let c0 := (idx.getD ic0 (0, 0)).2
          let c1 := (idx.getD ic1 (0, 0)).2
          bump (bump m c0 c1) c1 c0)
        m)
    m

/-- The scan of `compute_connectivity_matrix` (lines 750-762): walk the
frame/camera list keeping the current frame index and the position where its
run started; raise if the frame indices ever decrease; on a frame change,
finish the previous run.  Returns the matrix so far and the start position
of the last (still unfinished) run. -/
def connectivity_scan (idx : List (Int × Nat)) :
    List (Int × Nat) → Nat → Int → Int → ConnMat → Except CalErr (ConnMat × Int)
  | [], _, _, i_start, m => pure (m, i_start)
  | (f, _) :: rest, i, f_current, i_start, m =>
    if f < f_current then throw .nonMonotonicFrames
    else if f_current < f then
      let m := if 0 ≤ i_start then finish_frame idx m i_start.toNat (i - 1) else m
      connectivity_scan idx rest (i + 1) f i m
    else connectivity_scan idx rest (i + 1) f_current i_start m

/-- Embedding of `compute_connectivity_matrix` (lines 734-764).  The source's trailing
`finish_frame(i_start_current, len-1)` is guarded here by `0 ≤ i_start`,
matching the source whenever the list contains a non-negative frame index
(upstream produces consecutive frame indices from 0); with `i_start = -1`
the source's call is a no-op for an empty list. -/
def compute_connectivity_matrix (Ncameras : Nat) (idx : List (Int × Nat)) :
    Except CalErr ConnMat := do
  let m0 : ConnMat := List.replicate Ncameras (List.replicate Ncameras 0)
  let (m, i_start) ← connectivity_scan idx idx 0 (-1) (-1) m0
  pure (if 0 ≤ i_start then finish_frame idx m i_start.toNat (idx.length - 1) else m)

/-- The Dijkstra working state: per-camera `cost_to_node` (`none` = not yet
seen), per-camera `from_idx` (`-1` = none), the reference-relative poses
`Rt_0c` of cameras `1..Ncameras-1`, and the priority queue as the list of
camera indices currently in the heap. -/
structure SearchState where
  cost : List (Option Int)
  fromIdx : List Int
  Rt_0c : List (Option Rt)
  heap : List Nat
deriving Repr

/-- Embedding of `Node.visited()`: the node is the reference camera or its
reference-relative pose has been filled in. -/
def SearchState.visited (st : SearchState) (i : Nat) : Bool :=
  i = 0 || (st.Rt_0c.getD (i - 1) none).isSome

/-- Embedding of `Node.seen()`: the node has been given a cost (has been in the heap). -/
def SearchState.seen (st : SearchState) (i : Nat) : Bool :=
  (st.cost.getD i none).isSome

/-- Embedding of `Node.compute_edge_cost` (lines 827-834): `cost = 100000 - shared_frames`,
with the source's `assert(cost > 0)` embedded as a failure. -/
def compute_edge_cost (shared_frames : Nat) : Except CalErr Int :=
  let cost : Int := 100000 - (shared_frames : Int)
  if 0 < cost then pure cost else throw .assertionFailed

/-- Embedding of `Node.finish` (lines 804-817): when camera `cam ≠ 0` is finalized, its
reference-relative pose is the pairwise pose from its path predecessor,
composed on the left with the predecessor's already-finalized
reference-relative pose when the predecessor is not camera 0.  The
`getD`/`Rt.id` defaults stand for lookups the source performs only when the
Dijkstra invariant makes them in-range and already filled in. -/
def Node_finish (pw : Nat → Nat → Except CalErr Rt) (cam : Nat) (st : SearchState) :
    Except CalErr SearchState :=
  if cam = 0 then pure st
  else do
    let from_idx := (st.fromIdx.getD cam (-1)).toNat
    let Rt_fc ← pw from_idx cam
    if from_idx = 0 then
      pure { st with Rt_0c := st.Rt_0c.set (cam - 1) (some Rt_fc) }
    else
      let Rt_0f := (st.Rt_0c.getD (from_idx - 1) none).getD Rt.id
      pure { st with Rt_0c := st.Rt_0c.set (cam - 1) (some (compose_Rt Rt_0f Rt_fc)) }

/-- Embedding of `Node.visit` (lines 778-802): finish the node, then relax every
neighbouring camera: skip self, zero-shared pairs and visited nodes; compute
the edge cost; push unseen neighbours with their tentative cost and
predecessor; lower the cost and predecessor of seen ones when the new path
is cheaper.  (The source then re-heapifies; here the queue stores camera
indices and the pop reads the current costs, so the update needs no
re-heapify step.) -/
def Node_visit (pw : Nat → Nat → Except CalErr Rt) (Ncameras : Nat) (shared : ConnMat)
    (cam : Nat) (st : SearchState) : Except CalErr SearchState := do
  let st ← Node_finish pw cam st
  (List.range Ncameras).foldlM
    (fun st neighbor =>
      if neighbor = cam || (shared.getD neighbor []).getD cam 0 = 0 then pure st
      else if st.visited neighbor then pure st
      else do
        let cost_edge ← compute_edge_cost ((shared.getD neighbor []).getD cam 0)
        let cost_via : Int := (st.cost.getD cam none).getD 0 + cost_edge
        if ¬ st.seen neighbor then
          pure { st with
            cost := st.cost.set neighbor (some cost_via),
            fromIdx := st.fromIdx.set neighbor (cam : Int),
            heap := st.heap ++ [neighbor] }
        else if cost_via < (st.cost.getD neighbor none).getD 0 then
          pure { st with
            cost := st.cost.set neighbor (some cost_via),
            fromIdx := st.fromIdx.set neighbor (cam : Int) }
        else pure st)
    st

/-- Extract-min from the queue by current cost (leftmost among minima),
modelling `heapq.heappop` over nodes ordered by `cost_to_node`.  Returns
`none` exactly when the queue is empty. -/
def popMin (cost : List (Option Int)) : List Nat → Option (Nat × List Nat)
  | [] => none
  | h :: t =>
    match popMin cost t with
    | none => some (h, t)
    | some (m, rest) =>
      if (cost.getD h none).getD 0 ≤ (cost.getD m none).getD 0 then some (h, t)
      else some (m, h :: rest)

/-- The `while heap:` loop (lines 843-845), fuelled: each iteration pops the
minimum-cost node and visits it.  Every camera enters the heap at most once,
so `Ncameras` fuel runs this to queue exhaustion. -/
def dijkstra_loop (pw : Nat → Nat → Except CalErr Rt) (Ncameras : Nat)
    (shared : ConnMat) : Nat → SearchState → Except CalErr SearchState
  | 0, st => pure st
  | fuel + 1, st =>
    match popMin st.cost st.heap with
    | none => pure st
    | some (cam, heap') => do
      let st ← Node_visit pw Ncameras shared cam { st with heap := heap' }
      dijkstra_loop pw Ncameras shared fuel st

/-- Embedding of `Ncameras = np.max(indices_frame_camera[:,1]) + 1` (line 610). -/
def Ncameras_of (idx : List (Int × Nat)) : Nat :=
  idx.foldl (fun a q => max a q.2) 0 + 1

/-- Lines 838-845: initialize (`nodes[0].cost_to_node = 0`, empty heap),
visit the reference camera, then run the queue. -/
def camera_pose_search (p : Procrustes) (poses : List Rt) (idx : List (Int × Nat))
    (full_object : List V3) (Ncameras : Nat) (shared : ConnMat) :
    Except CalErr SearchState := do
  let pw := compute_pairwise_Rt p poses idx full_object
  let st0 : SearchState :=
    { cost := (List.replicate Ncameras (none : Option Int)).set 0 (some 0),
      fromIdx := List.replicate Ncameras (-1 : Int),
      Rt_0c := List.replicate (Ncameras - 1) none,
      heap := [] }
  let st ← Node_visit pw Ncameras shared 0 st0
  dijkstra_loop pw Ncameras shared Ncameras st

/-- Embedding of `_estimate_camera_poses` (lines 587-853).  The source recomputes the
calibration-object grid from the observation-array shape and the spacing;
here the flattened grid is passed in as `full_object` (the pixel
`observations` argument itself feeds only the dead `d0`/`d1` locals and is
not needed).  Fails with the disconnected-network error — carrying the
shared-observations matrix and the partial pose list, as the source formats
into its message — whenever some camera was never finalized. -/
def _estimate_camera_poses (p : Procrustes) (poses : List Rt) (idx : List (Int × Nat))
    (full_object : List V3) : Except CalErr (List Rt) := do
  let Ncameras := Ncameras_of idx
  let shared ← compute_connectivity_matrix Ncameras idx
  let st ← camera_pose_search p poses idx full_object Ncameras shared
  if st.Rt_0c.any fun x => x.isNone then
    throw (.disconnectedCameraNetwork shared st.Rt_0c)
  else
    pure st.Rt_0c.reduceOption

/-! ## Frame pose consolidator
(the `Rt_ref_frame` closure of `estimate_joint_frame_poses`,
calibration.py lines 986-1034). -/

/-- Pointwise sum of two equal-length point clouds. -/
def cloud_add (a b : List V3) : List V3 := List.zipWith (· + ·) a b

/-- Embedding of `Rt_ref_frame__single_observation` (lines 995-1003): the
board-to-reference transform implied by one observation — the local
board-to-camera pose itself for camera 0, and otherwise that pose composed
on the left with the camera's reference-relative pose `Rt_ref_cam[icam-1]`.
`Rt_ref_cam` is `mrcal.invert_Rt(extrinsics_Rt_fromref)` (line 986),
inverted slice by slice.  The `getD` defaults stand for lookups the source
performs by in-range numpy indexing. -/
def Rt_ref_frame__single_observation (idx : List (Int × Nat)) (poses : List Rt)
    (Rt_ref_cam : List Rt) (i_observation : Nat) : Rt :=
  let icam := (idx.getD i_observation (0, 0)).2
  let Rt_cam_frame := poses.getD i_observation Rt.id
  if icam = 0 then Rt_cam_frame
  else compose_Rt (Rt_ref_cam.getD (icam - 1) Rt.id) Rt_cam_frame

/-- Embedding of `Rt_ref_frame(i_observation0, i_observation1)` (lines 989-1034): the
consolidated reference-relative pose of the frame covering the observation
range `[i_observation0, i_observation1)`.  A single observation is used
directly; for several, the calibration object is placed into the reference
frame through each observation's implied pose, the placements are summed and
divided by the observation count, and the Rigid Alignment primitive fits the
canonical object onto the mean cloud.  (The source keeps the `(H,W,3)` grid
shape until the final `nps.clump`; the clouds here are flat throughout,
which commutes with all the pointwise operations involved.) -/
def Rt_ref_frame (p : Procrustes) (idx : List (Int × Nat)) (poses : List Rt)
    (Rt_ref_cam : List Rt) (object_width_n object_height_n : Nat) (spacing : ℚ)
    (i_observation0 i_observation1 : Nat) : Rt :=
  if i_observation1 - i_observation0 = 1 then
    Rt_ref_frame__single_observation idx poses Rt_ref_cam i_observation0
  else
    let obj := ref_calibration_object object_width_n object_height_n spacing
    let sum_obj_unproj :=
      (List.range' i_observation0 (i_observation1 - i_observation0)).foldl
        (fun acc i => cloud_add acc
          (obj.map (transform_point_Rt
            (Rt_ref_frame__single_observation idx poses Rt_ref_cam i))))
        (obj.map fun _ => (0 : V3))
    let mean_obj_ref :=
      sum_obj_unproj.map (V3.scale (1 / ((i_observation1 - i_observation0 : Nat) : ℚ)))
    p mean_obj_ref obj

/-! ## General helper lemmas -/

theorem exOk_mapM_of_mem_fail {α β : Type} (f : α → Except CalErr β) :
    ∀ (l : List α) (x : α), x ∈ l → exOk (f x) = false → exOk (l.mapM f) = false := by
  intro l
  induction l with
  | nil => intro x hx; simp at hx
  | cons h t ih =>
    intro x hx hfx
    rw [List.mapM_cons]
    rcases List.mem_cons.mp hx with rfl | hxt
    · cases hf : f x with
      | error e => simp [hf, exOk, Bind.bind, Except.bind]
      | ok b => rw [hf] at hfx; simp [exOk] at hfx
    · cases hf : f h with
      | error e => simp [hf, exOk, Bind.bind, Except.bind]
      | ok b =>
        have := ih x hxt hfx
        cases ht : t.mapM f with
        | error e => simp [hf, ht, exOk, Bind.bind, Except.bind]
        | ok ys => rw [ht] at this; simp [exOk] at this

theorem mapM_ok_mem {α β : Type} (f : α → Except CalErr β) :
    ∀ (l : List α) (ys : List β), l.mapM f = .ok ys → ∀ y ∈ ys, ∃ x ∈ l, f x = .ok y := by
  intro l
  induction l with
  | nil =>
    intro ys hys y hy
    simp only [List.mapM_nil] at hys
    cases hys; simp at hy
  | cons h t ih =>
    intro ys hys y hy
    rw [List.mapM_cons] at hys
    cases hf : f h with
    | error e => rw [hf] at hys; simp [Bind.bind, Except.bind, pure, Except.pure] at hys
    | ok b =>
      rw [hf] at hys
      cases ht : t.mapM f with
      | error e => rw [ht] at hys; simp [Bind.bind, Except.bind, pure, Except.pure] at hys
      | ok zs =>
        rw [ht] at hys
        simp only [Bind.bind, Except.bind, pure, Except.pure, Except.ok.injEq] at hys
        subst hys
        rcases List.mem_cons.mp hy with rfl | hyz
        · exact ⟨h, List.mem_cons_self h t, hf⟩
        · obtain ⟨x, hxt, hfx⟩ := ih zs ht y hyz
          exact ⟨x, List.mem_cons_of_mem h hxt, hfx⟩

/-! ## Claims about the monocular pose estimator -/

/-- C9: `estimate_monocular_calobject_poses_Rt_tocam` leaves the caller's
arrays unchanged: the pixel coordinates are overwritten only in the copy
made on line 504, so after the call the caller's `observations` (weight
column included — the second conjunct shows the reprojection step writes
only the two pixel columns) and `indices_frame_camera` arrays hold exactly
the values they held before. -/
theorem monocular_preserves_caller_arrays :
    (∀ (S : PnPSolver) (R_of_r : V3 → Mat3) (cams : List Camera) (object_spacing : ℚ)
       (a : CallerArrays),
       (estimate_monocular_calobject_poses_Rt_tocam S R_of_r cams object_spacing a).2 = a) ∧
    (∀ (cam : Camera) (g : Grid),
       (normalize_observation cam g).map (fun row => row.map fun pt => pt.w)
         = g.map fun row => row.map fun pt => pt.w) := by
  constructor
  · intro S R_of_r cams object_spacing a
    rfl
  · intro cam g
    unfold normalize_observation
    simp [List.map_map, Function.comp]

theorem solve_one_pose_insufficient (S : PnPSolver) (R_of_r : V3 → Mat3) (cam : Camera)
    (g : Grid) (full_object : List V3)
    (hlen : (valid_points g full_object).length < 4) :
    solve_one_pose S R_of_r cam g full_object = .error .solvePnPFailed := by
  unfold solve_one_pose
  have hnone : S.solve (pnp_inputs cam g full_object).1 (pnp_inputs cam g full_object).2.1
      (pnp_inputs cam g full_object).2.2 = none := by
    apply S.solve_insufficient
    unfold pnp_inputs
    simpa using hlen
  simp only [hnone]
  rfl

/-- C6: the monocular estimator's per-observation point selection keeps
exactly the points whose (pinhole-reprojected) coordinates and weight are
all non-negative (first conjunct); and whenever fewer than 4 valid points
remain, the per-observation solve fails (second conjunct) — through the
spec-modelled external solver, which cannot recover a pose from fewer than
4 points — so the whole estimator returns no result (third conjunct). -/
theorem valid_point_selection_and_min4 :
    (∀ (g : Grid) (full_object : List V3) (q : ObsPt × V3),
       q ∈ valid_points g full_object ↔
         q ∈ g.flatten.zip full_object ∧ 0 ≤ q.1.x ∧ 0 ≤ q.1.y ∧ 0 ≤ q.1.w) ∧
    (∀ (S : PnPSolver) (R_of_r : V3 → Mat3) (cam : Camera) (g : Grid)
       (full_object : List V3),
       (valid_points g full_object).length < 4 →
       solve_one_pose S R_of_r cam g full_object = .error .solvePnPFailed) ∧
    (∀ (S : PnPSolver) (R_of_r : V3 → Mat3) (cams : List Camera) (object_spacing : ℚ)
       (a : CallerArrays) (q : (Int × Nat) × Grid),
       q ∈ a.indices_frame_camera.zip (normalized_observations cams a) →
       (valid_points q.2
          (monocular_full_object object_spacing (normalized_observations cams a))).length < 4 →
       exOk (estimate_monocular_calobject_poses_Rt_tocam S R_of_r cams object_spacing a).1
         = false) := by
  refine ⟨?_, ?_, ?_⟩
  · intro g full_object q
    unfold valid_points
    simp [List.mem_filter]
  · intro S R_of_r cam g full_object hlen
    exact solve_one_pose_insufficient S R_of_r cam g full_object hlen
  · intro S R_of_r cams object_spacing a q hq hlen
    unfold estimate_monocular_calobject_poses_Rt_tocam
    by_cases hcore : cams.all fun c => c.hasCore
    · simp only [hcore, not_true_eq_false, if_false]
      apply exOk_mapM_of_mem_fail _ _ q hq
      rw [solve_one_pose_insufficient S R_of_r (cams.getD q.1.2 Camera.dummy) q.2 _ hlen]
      rfl
    · simp [hcore, exOk]

/-- C1: the behind-camera degeneracy handling of lines 553-565.  If the
first perspective solve yields a non-positive camera-forward translation,
the solver is re-run exactly once, with the first solution's rotation and
the translation flipped through the camera centre (`rvec, -tvec`) as the
extrinsic guess — the first pose turned 180° about the camera — and the
result of that retry is final: still-non-positive forward translation fails
with the behind-camera error, with no further attempt (first conjunct).
Consequently every pose the per-observation solve returns (second conjunct)
and every pose in a returned pose list of the whole estimator (third
conjunct) has strictly positive camera-forward translation. -/
theorem behind_camera_single_retry :
    (∀ (S : PnPSolver) (R_of_r : V3 → Mat3) (cam : Camera) (g : Grid)
       (full_object : List V3) (rvec tvec : V3),
       S.solve (pnp_inputs cam g full_object).1 (pnp_inputs cam g full_object).2.1
         (pnp_inputs cam g full_object).2.2 = some (rvec, tvec) →
       tvec.z ≤ 0 →
       solve_one_pose S R_of_r cam g full_object =
         match S.solveGuess (pnp_inputs cam g full_object).1
             (pnp_inputs cam g full_object).2.1 (pnp_inputs cam g full_object).2.2
             rvec (-tvec) with
         | none => .error .retriedSolvePnPFailed
         | some (rvec2, tvec2) =>
           if tvec2.z ≤ 0 then .error .poseBehindCamera
           else .ok (Rt_from_rt R_of_r rvec2 tvec2)) ∧
    (∀ (S : PnPSolver) (R_of_r : V3 → Mat3) (cam : Camera) (g : Grid)
       (full_object : List V3) (P : Rt),
       solve_one_pose S R_of_r cam g full_object = .ok P → 0 < P.t.z) ∧
    (∀ (S : PnPSolver) (R_of_r : V3 → Mat3) (cams : List Camera) (object_spacing : ℚ)
       (a : CallerArrays) (l : List Rt) (P : Rt),
       (estimate_monocular_calobject_poses_Rt_tocam S R_of_r cams object_spacing a).1
         = .ok l → P ∈ l → 0 < P.t.z) := by
  have hone : ∀ (S : PnPSolver) (R_of_r : V3 → Mat3) (cam : Camera) (g : Grid)
      (full_object : List V3) (P : Rt),
      solve_one_pose S R_of_r cam g full_object = .ok P → 0 < P.t.z := by
    intro S R_of_r cam g full_object P h
    unfold solve_one_pose at h
    cases hs : S.solve (pnp_inputs cam g full_object).1 (pnp_inputs cam g full_object).2.1
        (pnp_inputs cam g full_object).2.2 with
    | none => simp only [hs] at h; exact absurd h (by simp [throw, throwThe, MonadExceptOf.throw])
    | some rt =>
      obtain ⟨rvec, tvec⟩ := rt
      simp only [hs] at h
      by_cases hz : tvec.z ≤ 0
      · simp only [if_pos hz] at h
        cases hg : S.solveGuess (pnp_inputs cam g full_object).1
            (pnp_inputs cam g full_object).2.1 (pnp_inputs cam g full_object).2.2
            rvec (-tvec) with
        | none =>
          simp only [hg] at h
          exact absurd h (by simp [throw, throwThe, MonadExceptOf.throw])
        | some rt2 =>
          obtain ⟨rvec2, tvec2⟩ := rt2
          simp only [hg] at h
          by_cases hz2 : tvec2.z ≤ 0
          · simp only [if_pos hz2] at h
            exact absurd h (by simp [throw, throwThe, MonadExceptOf.throw])
          · simp only [if_neg hz2] at h
            simp only [pure, Except.pure, Except.ok.injEq] at h
            subst h
            exact lt_of_not_le hz2
      · simp only [if_neg hz] at h
        simp only [pure, Except.pure, Except.ok.injEq] at h
        subst h
        exact lt_of_not_le hz
  refine ⟨?_, hone, ?_⟩
  · intro S R_of_r cam g full_object rvec tvec hs hz
    unfold solve_one_pose
    simp only [hs, if_pos hz]
    cases hg : S.solveGuess (pnp_inputs cam g full_object).1
        (pnp_inputs cam g full_object).2.1 (pnp_inputs cam g full_object).2.2
        rvec (-tvec) with
    | none => rfl
    | some rt2 =>
      obtain ⟨rvec2, tvec2⟩ := rt2
      by_cases hz2 : tvec2.z ≤ 0
      · simp [if_pos hz2]; rfl
      · simp [if_neg hz2]; rfl
  · intro S R_of_r cams object_spacing a l P hl hP
    unfold estimate_monocular_calobject_poses_Rt_tocam at hl
    by_cases hcore : cams.all fun c => c.hasCore
    · simp only [hcore, not_true_eq_false, if_false] at hl
      obtain ⟨x, _, hx⟩ := mapM_ok_mem _ _ l hl P hP
      exact hone _ _ _ _ _ _ hx
    · simp [hcore] at hl

/-! Concrete instances used by the witnesses. -/

/-- A distortion-free camera: the pinhole normalization is the identity. -/
def pinholeCam : Camera := ⟨true, 1, 1, 0, 0, fun q => q⟩

/-- A solver instance that initially reports the target behind the camera
(`tvec = (0,0,-1)`) and, when retried with an extrinsic guess, returns that
guess. -/
def flipSolver : PnPSolver where
  solve := fun obs _ _ =>
    if obs.length < 4 then none else some (⟨0, 0, 0⟩, ⟨0, 0, -1⟩)
  solveGuess := fun _ _ _ rvec tvec => some (rvec, tvec)
  solve_insufficient := by
    intro obs ref K h
    simp [h]

/-- A rotation-vector conversion instance. -/
def idMat : V3 → Mat3 := fun _ => Mat3.id

/-- A 1×4 observation grid with all 4 points valid. -/
def grid4 : Grid := [[⟨0, 0, 1⟩, ⟨1, 0, 1⟩, ⟨0, 1, 1⟩, ⟨1, 1, 1⟩]]

/-- A 1×4 observation grid with only 3 valid points (the last has
`weight < 0`). -/
def grid3 : Grid := [[⟨0, 0, 1⟩, ⟨1, 0, 1⟩, ⟨0, 1, 1⟩, ⟨0, 0, -1⟩]]

/-- Caller arrays holding the single observation `grid4` by camera 0. -/
def arrays4 : CallerArrays := ⟨[(0, 0)], [grid4]⟩

/-- Caller arrays holding the single observation `grid3` by camera 0. -/
def arrays3 : CallerArrays := ⟨[(0, 0)], [grid3]⟩

/-- Witness for C1: on a concrete observation whose first solve puts the
target behind the camera, the estimator returns a pose, and that pose has
strictly positive forward translation by the claim theorem. -/
theorem behind_camera_single_retry_witness :
    (estimate_monocular_calobject_poses_Rt_tocam flipSolver idMat [pinholeCam] 1 arrays4).1
      = .ok [⟨Mat3.id, ⟨0, 0, 1⟩⟩] ∧ (0 : ℚ) < (Rt.mk Mat3.id ⟨0, 0, 1⟩).t.z := by
  have h : (estimate_monocular_calobject_poses_Rt_tocam flipSolver idMat [pinholeCam] 1
      arrays4).1 = .ok [⟨Mat3.id, ⟨0, 0, 1⟩⟩] := by rfl
  exact ⟨h, behind_camera_single_retry.2.2 flipSolver idMat [pinholeCam] 1 arrays4
    [⟨Mat3.id, ⟨0, 0, 1⟩⟩] ⟨Mat3.id, ⟨0, 0, 1⟩⟩ h (by simp)⟩

/-- Witness for C6: a concrete observation with 3 valid points makes the
per-observation solve, and the whole estimator, fail. -/
theorem valid_point_selection_and_min4_witness :
    solve_one_pose flipSolver idMat pinholeCam grid3 (ref_calibration_object 4 1 1)
      = .error .solvePnPFailed ∧
    exOk (estimate_monocular_calobject_poses_Rt_tocam flipSolver idMat [pinholeCam] 1
      arrays3).1 = false := by
  constructor
  · exact valid_point_selection_and_min4.2.1 flipSolver idMat pinholeCam grid3
      (ref_calibration_object 4 1 1) (by decide)
  · exact valid_point_selection_and_min4.2.2 flipSolver idMat [pinholeCam] 1 arrays3
      ((0, 0), normalize_observation pinholeCam grid3) (by simp [normalized_observations,
        arrays3]) (by decide)

/-! ## Claims about the frame pose consolidator -/

theorem V3.neg_def (a : V3) : -a = ⟨-a.x, -a.y, -a.z⟩ := rfl

theorem V3.add_def (a b : V3) : a + b = ⟨a.x + b.x, a.y + b.y, a.z + b.z⟩ := rfl

theorem V3.zero_def : (0 : V3) = ⟨0, 0, 0⟩ := rfl

theorem invert_Rt_id : invert_Rt Rt.id = Rt.id := by
  unfold invert_Rt Rt.id Mat3.transpose Mat3.id Mat3.mulVec
  simp [V3.neg_def, V3.zero_def]

/-- C4: a frame with exactly one observation (`i_observation1 - i_observation0 = 1`)
is consolidated to that observation's local target-to-camera pose composed
with the observing camera's reference-relative pose — the pose itself when
the observer is camera 0, and otherwise the inverse of the camera's
from-reference extrinsic composed with the local pose. -/
theorem single_observation_frame_consolidation :
    ∀ (p : Procrustes) (idx : List (Int × Nat)) (poses : List Rt) (extr : List Rt)
      (W H : Nat) (spacing : ℚ) (i0 : Nat),
      ((idx.getD i0 (0, 0)).2 = 0 →
        Rt_ref_frame p idx poses (extr.map invert_Rt) W H spacing i0 (i0 + 1)
          = poses.getD i0 Rt.id) ∧
      ((idx.getD i0 (0, 0)).2 ≠ 0 →
        Rt_ref_frame p idx poses (extr.map invert_Rt) W H spacing i0 (i0 + 1)
          = compose_Rt (invert_Rt (extr.getD ((idx.getD i0 (0, 0)).2 - 1) Rt.id))
              (poses.getD i0 Rt.id)) := by
  intro p idx poses extr W H spacing i0
  have hone : i0 + 1 - i0 = 1 := by omega
  constructor
  · intro hicam
    unfold Rt_ref_frame Rt_ref_frame__single_observation
    rw [if_pos hone, if_pos hicam]
  · intro hicam
    unfold Rt_ref_frame Rt_ref_frame__single_observation
    rw [if_pos hone, if_neg hicam, ← List.getD_map extr Rt.id invert_Rt, invert_Rt_id]

/-- The point-wise arithmetic mean of a list of point clouds, stated as the
spec's words put it (for comparison with the code's running-sum loop):
add the clouds point by point and divide every coordinate by the number of
clouds. -/
def pointwise_mean (clouds : List (List V3)) (zero : List V3) : List V3 :=
  (clouds.foldl cloud_add zero).map (V3.scale (1 / (clouds.length : ℚ)))

/-- C5: a frame observed by two or more cameras is consolidated by placing
the canonical grid into the reference frame through each observation's
implied pose, averaging the placements point-wise across the observations,
and fitting the canonical grid onto the mean cloud with the rigid-alignment
primitive. -/
theorem multi_observation_frame_consolidation :
    ∀ (p : Procrustes) (idx : List (Int × Nat)) (poses : List Rt) (Rt_ref_cam : List Rt)
      (W H : Nat) (spacing : ℚ) (i0 i1 : Nat),
      2 ≤ i1 - i0 →
      Rt_ref_frame p idx poses Rt_ref_cam W H spacing i0 i1 =
        p (pointwise_mean
            ((List.range' i0 (i1 - i0)).map fun i =>
              (ref_calibration_object W H spacing).map
                (transform_point_Rt (Rt_ref_frame__single_observation idx poses Rt_ref_cam i)))
            ((ref_calibration_object W H spacing).map fun _ => (0 : V3)))
          (ref_calibration_object W H spacing) := by
  intro p idx poses Rt_ref_cam W H spacing i0 i1 h2
  have hne : ¬ (i1 - i0 = 1) := by omega
  unfold Rt_ref_frame pointwise_mean
  rw [if_neg hne, List.foldl_map]
  have hlen : ((List.range' i0 (i1 - i0)).map fun i =>
      (ref_calibration_object W H spacing).map
        (transform_point_Rt (Rt_ref_frame__single_observation idx poses Rt_ref_cam i))).length
      = i1 - i0 := by
    simp
  rw [hlen]

/-- The rigid-alignment instance of the witnesses: a constant function, as
permitted by the abstract `Procrustes` parameter. -/
def pId : Procrustes := fun _ _ => Rt.id

/-- Witness for C4: a concrete single-observation frame seen by camera 1,
with a nontrivial extrinsic. -/
theorem single_observation_frame_consolidation_witness :
    Rt_ref_frame pId [(0, 1)] [⟨Mat3.id, ⟨4, 5, 6⟩⟩] ([⟨Mat3.id, ⟨1, 2, 3⟩⟩].map invert_Rt)
        1 1 1 0 1
      = compose_Rt (invert_Rt (Rt.mk Mat3.id ⟨1, 2, 3⟩)) (Rt.mk Mat3.id ⟨4, 5, 6⟩) :=
  (single_observation_frame_consolidation pId [(0, 1)] [⟨Mat3.id, ⟨4, 5, 6⟩⟩]
    [⟨Mat3.id, ⟨1, 2, 3⟩⟩] 1 1 1 0).2 (by decide)

/-- Witness for C5: a concrete frame with two observations. -/
theorem multi_observation_frame_consolidation_witness :
    Rt_ref_frame pId [(0, 0), (0, 1)] [⟨Mat3.id, ⟨1, 0, 0⟩⟩, ⟨Mat3.id, ⟨0, 1, 0⟩⟩]
        [⟨Mat3.id, ⟨0, 0, 2⟩⟩] 2 1 1 0 2 =
      pId (pointwise_mean
          ((List.range' 0 2).map fun i =>
            (ref_calibration_object 2 1 1).map
              (transform_point_Rt (Rt_ref_frame__single_observation [(0, 0), (0, 1)]
                [⟨Mat3.id, ⟨1, 0, 0⟩⟩, ⟨Mat3.id, ⟨0, 1, 0⟩⟩] [⟨Mat3.id, ⟨0, 0, 2⟩⟩] i)))
          ((ref_calibration_object 2 1 1).map fun _ => (0 : V3)))
        (ref_calibration_object 2 1 1) :=
  multi_observation_frame_consolidation pId [(0, 0), (0, 1)]
    [⟨Mat3.id, ⟨1, 0, 0⟩⟩, ⟨Mat3.id, ⟨0, 1, 0⟩⟩] [⟨Mat3.id, ⟨0, 0, 2⟩⟩] 2 1 1 0 2
    (by decide)

/-! ## Claims about the pairwise relative-pose computation -/

theorem Mat3.transpose_transpose (a : Mat3) : a.transpose.transpose = a := rfl

theorem Mat3.mulVec_neg (a : Mat3) (v : V3) : a.mulVec (-v) = -(a.mulVec v) := by
  simp only [Mat3.mulVec, V3.neg_def, V3.mk.injEq]
  refine ⟨by ring, by ring, by ring⟩

theorem Mat3.mul_mulVec (a b : Mat3) (v : V3) :
    (a.mul b).mulVec v = a.mulVec (b.mulVec v) := by
  simp only [Mat3.mul, Mat3.mulVec, V3.mk.injEq]
  refine ⟨by ring, by ring, by ring⟩

theorem Mat3.id_mulVec (v : V3) : Mat3.id.mulVec v = v := by
  obtain ⟨x, y, z⟩ := v
  simp only [Mat3.id, Mat3.mulVec, V3.mk.injEq]
  refine ⟨by ring, by ring, by ring⟩

theorem Mat3.id_IsOrtho : Mat3.id.IsOrtho := by
  unfold Mat3.IsOrtho
  simp only [Mat3.id, Mat3.transpose, Mat3.mul, Mat3.mk.injEq]
  norm_num

theorem V3.neg_neg_eq (v : V3) : -(-v) = v := by
  simp [V3.neg_def]

theorem invert_Rt_invert_Rt (a : Rt) (h : a.R.IsOrtho) : invert_Rt (invert_Rt a) = a := by
  obtain ⟨R, t⟩ := a
  unfold invert_Rt
  simp only [Mat3.transpose_transpose]
  unfold Mat3.IsOrtho at h
  rw [Mat3.mulVec_neg, V3.neg_neg_eq, ← Mat3.mul_mulVec, h, Mat3.id_mulVec]

theorem pairwise_direct_ok_shape (p : Procrustes) (full_object : List V3)
    (icam_to icam_from : Nat) (entries : List ((Int × Nat) × Rt)) (Q : Rt)
    (h : pairwise_direct p full_object icam_to icam_from entries = .ok Q) :
    ∃ A B, Q = p A B := by
  unfold pairwise_direct at h
  cases hf : entries.foldlM (pairwise_step full_object icam_to icam_from)
      ⟨-1, none, none, [], []⟩ with
  | error e => rw [hf] at h; simp [Bind.bind, Except.bind] at h
  | ok st =>
    rw [hf] at h
    simp only [Bind.bind, Except.bind, pure, Except.pure, Except.ok.injEq] at h
    exact ⟨st.A, st.B, h.symm⟩

/-- C10: the pairwise relative-pose computation is antisymmetric: for
distinct camera indices, `compute_pairwise_Rt(a, b)` is the rigid-pose
inverse of `compute_pairwise_Rt(b, a)`, because the call whose destination
index exceeds its source index computes the opposite transform and inverts
it.  The hypothesis is the spec's §4.1 guarantee that the rigid-alignment
primitive returns a rotation (orthonormal `R`). -/
theorem pairwise_Rt_antisymmetry :
    ∀ (p : Procrustes) (poses : List Rt) (idx : List (Int × Nat)) (full_object : List V3),
      (∀ A B, (p A B).R.IsOrtho) →
      ∀ a b, a ≠ b →
        compute_pairwise_Rt p poses idx full_object a b
          = (compute_pairwise_Rt p poses idx full_object b a).map invert_Rt := by
  intro p poses idx full_object hp a b hab
  rcases Nat.lt_trichotomy a b with hlt | heq | hgt
  · have hA : compute_pairwise_Rt p poses idx full_object a b
        = pairwise_direct p full_object a b (idx.zip poses) := by
      rw [compute_pairwise_Rt]
      rw [dif_neg (by omega), if_neg (by omega)]
    have hB : compute_pairwise_Rt p poses idx full_object b a
        = (compute_pairwise_Rt p poses idx full_object a b).map invert_Rt := by
      rw [compute_pairwise_Rt]
      rw [dif_pos hlt]
    rw [hB, hA]
    cases hd : pairwise_direct p full_object a b (idx.zip poses) with
    | error e => rfl
    | ok Q =>
      obtain ⟨A, B, rfl⟩ := pairwise_direct_ok_shape p full_object a b (idx.zip poses) Q hd
      simp only [Except.map]
      rw [invert_Rt_invert_Rt _ (hp A B)]
  · exact absurd heq hab
  · conv_lhs => rw [compute_pairwise_Rt]
    rw [dif_pos hgt]

/-- Concrete inputs shared by several witnesses: a 2×2 calibration grid, and
an observation list of 3 cameras over 2 frames (frame 0 seen by cameras 0
and 1, frame 1 by cameras 1 and 2), with simple local poses. -/
def obj3 : List V3 := ref_calibration_object 2 2 1

/-- Frame/camera index list of the 3-camera example. -/
def idx3 : List (Int × Nat) := [(0, 0), (0, 1), (1, 1), (1, 2)]

/-- Per-observation local poses of the 3-camera example. -/
def poses3 : List Rt :=
  [⟨Mat3.id, ⟨0, 0, 1⟩⟩, ⟨Mat3.id, ⟨1, 0, 1⟩⟩, ⟨Mat3.id, ⟨0, 1, 1⟩⟩, ⟨Mat3.id, ⟨1, 1, 1⟩⟩]

/-- Witness for C10: concrete antisymmetry instance for cameras 0 and 1. -/
theorem pairwise_Rt_antisymmetry_witness :
    compute_pairwise_Rt pId poses3 idx3 obj3 0 1
      = (compute_pairwise_Rt pId poses3 idx3 obj3 1 0).map invert_Rt :=
  pairwise_Rt_antisymmetry pId poses3 idx3 obj3 (fun _ _ => Mat3.id_IsOrtho) 0 1
    (by omega)

/-! ## Claims about the camera network pose solver -/

theorem compute_pairwise_Rt_direct (p : Procrustes) (poses : List Rt)
    (idx : List (Int × Nat)) (full_object : List V3) (a b : Nat) (h : a < b) :
    compute_pairwise_Rt p poses idx full_object a b
      = pairwise_direct p full_object a b (idx.zip poses) := by
  rw [compute_pairwise_Rt]
  rw [dif_neg (by omega), if_neg (by omega)]

theorem Node_finish_pred (pw : Nat → Nat → Except CalErr Rt) (st : SearchState)
    (cam fidx : Nat) (P Q : Rt) (hcam : cam ≠ 0)
    (hfrom : st.fromIdx.getD cam (-1) = (fidx : Int)) (hfidx : fidx ≠ 0)
    (hP : st.Rt_0c.getD (fidx - 1) none = some P) (hQ : pw fidx cam = .ok Q) :
    Node_finish pw cam st
      = .ok { st with Rt_0c := st.Rt_0c.set (cam - 1) (some (compose_Rt P Q)) } := by
  unfold Node_finish
  rw [if_neg hcam, hfrom]
  simp only [Int.toNat_natCast, hQ, Bind.bind, Except.bind, if_neg hfidx, hP,
    Option.getD_some]
  rfl

theorem Node_finish_ref (pw : Nat → Nat → Except CalErr Rt) (st : SearchState)
    (cam : Nat) (Q : Rt) (hcam : cam ≠ 0) (hfrom : st.fromIdx.getD cam (-1) = 0)
    (hQ : pw 0 cam = .ok Q) :
    Node_finish pw cam st = .ok { st with Rt_0c := st.Rt_0c.set (cam - 1) (some Q) } := by
  unfold Node_finish
  rw [if_neg hcam, hfrom]
  simp only [Int.toNat_zero, hQ, Bind.bind, Except.bind, if_pos rfl, if_true]
  rfl

/-- The pairwise-pose function of the 3-camera example, as the search
closes over it. -/
def pw3 (p : Procrustes) : Nat → Nat → Except CalErr Rt :=
  compute_pairwise_Rt p poses3 idx3 obj3

/-- C2: when the shortest-path search finalizes a camera, its
reference-relative pose is the pairwise pose from its path predecessor,
composed with the predecessor's already-finalized reference-relative pose
when the predecessor is not camera 0 (first conjunct) and the pairwise pose
alone when it is (second conjunct).  Third conjunct: on the concrete
3-camera input `idx3` where cameras 0-1 and 1-2 co-observe a frame but 0-2
never do, the solver succeeds — it does not report a disconnected network —
and camera 2's reference-relative pose is the composition of the 0→1 and
1→2 pairwise poses, for every alignment primitive `p`. -/
theorem shortest_path_pose_composition :
    (∀ (pw : Nat → Nat → Except CalErr Rt) (st : SearchState) (cam fidx : Nat) (P Q : Rt),
       cam ≠ 0 → st.fromIdx.getD cam (-1) = (fidx : Int) → fidx ≠ 0 →
       st.Rt_0c.getD (fidx - 1) none = some P → pw fidx cam = .ok Q →
       Node_finish pw cam st
         = .ok { st with Rt_0c := st.Rt_0c.set (cam - 1) (some (compose_Rt P Q)) }) ∧
    (∀ (pw : Nat → Nat → Except CalErr Rt) (st : SearchState) (cam : Nat) (Q : Rt),
       cam ≠ 0 → st.fromIdx.getD cam (-1) = 0 → pw 0 cam = .ok Q →
       Node_finish pw cam st
         = .ok { st with Rt_0c := st.Rt_0c.set (cam - 1) (some Q) }) ∧
    (∀ (p : Procrustes) (Q01 Q12 : Rt),
       compute_pairwise_Rt p poses3 idx3 obj3 0 1 = .ok Q01 →
       compute_pairwise_Rt p poses3 idx3 obj3 1 2 = .ok Q12 →
       _estimate_camera_poses p poses3 idx3 obj3 = .ok [Q01, compose_Rt Q01 Q12]) := by
  refine ⟨fun pw st cam fidx P Q h1 h2 h3 h4 h5 =>
    Node_finish_pred pw st cam fidx P Q h1 h2 h3 h4 h5,
    fun pw st cam Q h1 h2 h3 => Node_finish_ref pw st cam Q h1 h2 h3, ?_⟩
  intro p Q01 Q12 h01 h12
  -- After visiting camera 0, camera 1 is in the queue with cost 99999.
  have hf1 : Node_finish (pw3 p) 1
      ⟨[some 0, some 99999, none], [-1, 0, -1], [none, none], []⟩
      = .ok { SearchState.mk [some 0, some 99999, none] [-1, 0, -1] [none, none] [] with
          Rt_0c := List.set [none, none] (1 - 1) (some Q01) } :=
    Node_finish_ref (pw3 p) _ 1 Q01 (by omega) (by rfl) h01
  have hv1 : Node_visit (pw3 p) 3 [[0, 1, 0], [1, 0, 1], [0, 1, 0]] 1
      ⟨[some 0, some 99999, none], [-1, 0, -1], [none, none], []⟩
      = .ok ⟨[some 0, some 99999, some 199998], [-1, 0, 1], [some Q01, none], [2]⟩ := by
    unfold Node_visit
    rw [hf1]
    rfl
  -- Camera 2 is finalized through predecessor 1.
  have hf2 : Node_finish (pw3 p) 2
      ⟨[some 0, some 99999, some 199998], [-1, 0, 1], [some Q01, none], []⟩
      = .ok { SearchState.mk [some 0, some 99999, some 199998] [-1, 0, 1]
            [some Q01, none] [] with
          Rt_0c := List.set [some Q01, none] (2 - 1) (some (compose_Rt Q01 Q12)) } :=
    Node_finish_pred (pw3 p) _ 2 1 Q01 Q12 (by omega) (by rfl) (by omega) (by rfl) h12
  have hv2 : Node_visit (pw3 p) 3 [[0, 1, 0], [1, 0, 1], [0, 1, 0]] 2
      ⟨[some 0, some 99999, some 199998], [-1, 0, 1], [some Q01, none], []⟩
      = .ok ⟨[some 0, some 99999, some 199998], [-1, 0, 1],
          [some Q01, some (compose_Rt Q01 Q12)], []⟩ := by
    unfold Node_visit
    rw [hf2]
    rfl
  have hsearch : camera_pose_search p poses3 idx3 obj3 3 [[0, 1, 0], [1, 0, 1], [0, 1, 0]]
      = .ok ⟨[some 0, some 99999, some 199998], [-1, 0, 1],
          [some Q01, some (compose_Rt Q01 Q12)], []⟩ := by
    have e1 : camera_pose_search p poses3 idx3 obj3 3 [[0, 1, 0], [1, 0, 1], [0, 1, 0]]
        = Except.bind (Node_visit (pw3 p) 3 [[0, 1, 0], [1, 0, 1], [0, 1, 0]] 1
            ⟨[some 0, some 99999, none], [-1, 0, -1], [none, none], []⟩)
          (dijkstra_loop (pw3 p) 3 [[0, 1, 0], [1, 0, 1], [0, 1, 0]] 2) := by rfl
    rw [e1, hv1]
    have e2 : Except.bind (α := SearchState)
          (.ok ⟨[some 0, some 99999, some 199998], [-1, 0, 1], [some Q01, none], [2]⟩)
          (dijkstra_loop (pw3 p) 3 [[0, 1, 0], [1, 0, 1], [0, 1, 0]] 2)
        = Except.bind (Node_visit (pw3 p) 3 [[0, 1, 0], [1, 0, 1], [0, 1, 0]] 2
            ⟨[some 0, some 99999, some 199998], [-1, 0, 1], [some Q01, none], []⟩)
          (dijkstra_loop (pw3 p) 3 [[0, 1, 0], [1, 0, 1], [0, 1, 0]] 1) := by rfl
    rw [e2, hv2]
    rfl
  have e0 : _estimate_camera_poses p poses3 idx3 obj3
      = Except.bind (camera_pose_search p poses3 idx3 obj3 3
          [[0, 1, 0], [1, 0, 1], [0, 1, 0]])
        (fun st => if st.Rt_0c.any (fun x => x.isNone) then
            Except.error (.disconnectedCameraNetwork [[0, 1, 0], [1, 0, 1], [0, 1, 0]]
              st.Rt_0c)
          else Except.ok st.Rt_0c.reduceOption) := by rfl
  rw [e0, hsearch]
  rfl

/-- The pairwise function used by witnesses that exercise `Node_finish`
directly. -/
def pwId : Nat → Nat → Except CalErr Rt := fun _ _ => .ok Rt.id

/-- The search state used by the C2 witness: camera 2's predecessor is
camera 1, whose reference-relative pose is already finalized. -/
def stW : SearchState := ⟨[], [-1, -1, 1], [some Rt.id, none], []⟩

/-- Witness for C2: `Node_finish` composes through the predecessor on a
concrete state, and the concrete 3-camera run returns the composed pose. -/
theorem shortest_path_pose_composition_witness :
    Node_finish pwId 2 stW
      = .ok { stW with Rt_0c := stW.Rt_0c.set (2 - 1) (some (compose_Rt Rt.id Rt.id)) } ∧
    _estimate_camera_poses pId poses3 idx3 obj3 = .ok [Rt.id, compose_Rt Rt.id Rt.id] := by
  have h01 : compute_pairwise_Rt pId poses3 idx3 obj3 0 1 = .ok Rt.id := by
    rw [compute_pairwise_Rt_direct pId poses3 idx3 obj3 0 1 (by omega)]; rfl
  have h12 : compute_pairwise_Rt pId poses3 idx3 obj3 1 2 = .ok Rt.id := by
    rw [compute_pairwise_Rt_direct pId poses3 idx3 obj3 1 2 (by omega)]; rfl
  exact ⟨shortest_path_pose_composition.1 pwId stW 2 1 Rt.id Rt.id (by omega) (by rfl)
      (by omega) (by rfl) (by rfl),
    shortest_path_pose_composition.2.2 pId Rt.id Rt.id h01 h12⟩

/-- C3: whenever the shortest-path search terminates with some camera still
unreached (its `Rt_0c` slot empty), `_estimate_camera_poses` fails — it
returns no pose list at all — and the error carries the shared-observations
connectivity matrix and the partially-resolved camera poses. -/
theorem disconnected_network_failure :
    ∀ (p : Procrustes) (poses : List Rt) (idx : List (Int × Nat)) (full_object : List V3)
      (shared : ConnMat) (st : SearchState),
      compute_connectivity_matrix (Ncameras_of idx) idx = .ok shared →
      camera_pose_search p poses idx full_object (Ncameras_of idx) shared = .ok st →
      (st.Rt_0c.any fun x => x.isNone) = true →
      _estimate_camera_poses p poses idx full_object
        = .error (.disconnectedCameraNetwork shared st.Rt_0c) := by
  intro p poses idx full_object shared st hconn hsearch hany
  unfold _estimate_camera_poses
  simp [hconn, hsearch, hany, Bind.bind, Except.bind, throw, throwThe, MonadExceptOf.throw]

/-- Index list of the disconnected witness: cameras 0 and 1 never observe a
common frame. -/
def idx2 : List (Int × Nat) := [(0, 0), (1, 1)]

/-- Local poses of the disconnected witness. -/
def poses2 : List Rt := [Rt.id, Rt.id]

/-- Witness for C3: the concrete disconnected 2-camera input fails with the
disconnected-network error carrying the (zero) connectivity matrix and the
unfilled pose list. -/
theorem disconnected_network_failure_witness :
    _estimate_camera_poses pId poses2 idx2 obj3
      = .error (.disconnectedCameraNetwork [[0, 0], [0, 0]] [none]) :=
  disconnected_network_failure pId poses2 idx2 obj3 [[0, 0], [0, 0]]
    ⟨[some 0, none], [-1, -1], [none], []⟩ (by rfl) (by rfl) (by rfl)

/-! ## The duplicate-observation check of the pairwise scan (C7) -/

/-- Returns `true` exactly on the duplicate-observation error. -/
def isConflict {α : Type} : Except CalErr α → Bool
  | .error (.conflictingObservation _ _) => true
  | _ => false

/-- The exact condition under which the pairwise scan raises its
duplicate-observation error, stated over the raw frame/camera list (the
amended form of the claim): scanning with the per-frame flags `r0` ("the
destination camera was seen in the current frame") and `r1` ("a pair was
already formed in the current frame"), the error fires on a second
destination-camera observation in a frame, or on a source-camera
observation when a pair was already formed; a source-camera observation
before any destination-camera one, and every observation of an unrelated
camera, is ignored. -/
def conflict_spec (icam_to icam_from : Nat) :
    List (Int × Nat) → Int → Bool → Bool → Bool
  | [], _, _, _ => false
  | (f, c) :: rest, iframe_last, r0, r1 =>
    let r0' := if f ≠ iframe_last then false else r0
    let r1' := if f ≠ iframe_last then false else r1
    if c = icam_to then
      r0' || conflict_spec icam_to icam_from rest f true r1'
    else if c = icam_from then
      if r0' then r1' || conflict_spec icam_to icam_from rest f r0' true
      else conflict_spec icam_to icam_from rest f r0' r1'
    else conflict_spec icam_to icam_from rest f r0' r1'

theorem throw_eq_error {α : Type} (e : CalErr) : (throw e : Except CalErr α) = .error e := rfl

theorem isConflict_error_bind {α β : Type} (e : CalErr) (k : α → Except CalErr β) :
    isConflict (Except.error e >>= k) = isConflict (Except.error (α := β) e) := rfl

theorem except_pure_bind {α β : Type} (a : α) (k : α → Except CalErr β) :
    (pure a >>= k : Except CalErr β) = k a := rfl

theorem isConflict_bind_pure (x : Except CalErr PairState) (p : Procrustes) :
    isConflict (x >>= fun st => pure (p st.A st.B)) = isConflict x := by
  cases x with
  | ok st => rfl
  | error e => cases e <;> rfl

theorem pairwise_scan_conflict (full_object : List V3) (tc fc : Nat) :
    ∀ (entries : List ((Int × Nat) × Rt)) (st : PairState),
      isConflict (List.foldlM (pairwise_step full_object tc fc) st entries)
        = conflict_spec tc fc (entries.map Prod.fst) st.iframe_last st.Rt0.isSome
            st.Rt1.isSome := by
  intro entries
  induction entries with
  | nil => intro st; rfl
  | cons e rest ih =>
    intro st
    obtain ⟨⟨f, c⟩, pose⟩ := e
    rw [List.foldlM_cons, List.map_cons]
    by_cases hf : f = st.iframe_last
    · by_cases hc0 : c = tc
      · cases hRt0 : st.Rt0 with
        | some P =>
          have hstep : pairwise_step full_object tc fc st ((f, c), pose)
              = .error (.conflictingObservation c f) := by
            simp [pairwise_step, hf, hc0, hRt0, throw_eq_error]
          rw [hstep, isConflict_error_bind]
          symm
          simp [conflict_spec, hf, hc0, hRt0, isConflict]
        | none =>
          have hstep : pairwise_step full_object tc fc st ((f, c), pose)
              = pure { st with Rt0 := some pose } := by
            simp [pairwise_step, hf, hc0, hRt0]
          rw [hstep, except_pure_bind, ih]
          simp [conflict_spec, hf, hc0, hRt0]
      · by_cases hc1 : c = fc
        · have hfc : ¬ (fc = tc) := fun h => hc0 (hc1.trans h)
          cases hRt0 : st.Rt0 with
          | none =>
            have hstep : pairwise_step full_object tc fc st ((f, c), pose) = pure st := by
              simp [pairwise_step, hf, hc0, hc1, hfc, hRt0]
            rw [hstep, except_pure_bind, ih]
            simp [conflict_spec, hf, hc0, hc1, hfc, hRt0]
          | some P =>
            cases hRt1 : st.Rt1 with
            | some Q =>
              have hstep : pairwise_step full_object tc fc st ((f, c), pose)
                  = .error (.conflictingObservation c f) := by
                simp [pairwise_step, hf, hc0, hc1, hfc, hRt0, hRt1, throw_eq_error]
              rw [hstep, isConflict_error_bind]
              symm
              simp [conflict_spec, hf, hc0, hc1, hfc, hRt0, hRt1, isConflict]
            | none =>
              have hstep : pairwise_step full_object tc fc st ((f, c), pose)
                  = pure (PairState.mk st.iframe_last (some P) (some pose)
                      (st.A ++ full_object.map (transform_point_Rt P))
                      (st.B ++ full_object.map (transform_point_Rt pose))) := by
                simp [pairwise_step, hf, hc0, hc1, hfc, hRt0, hRt1]
              rw [hstep, except_pure_bind, ih]
              simp [conflict_spec, hf, hc0, hc1, hfc, hRt0, hRt1]
        · have hstep : pairwise_step full_object tc fc st ((f, c), pose) = pure st := by
            simp [pairwise_step, hf, hc0, hc1]
          rw [hstep, except_pure_bind, ih]
          simp [conflict_spec, hf, hc0, hc1]
    · by_cases hc0 : c = tc
      · have hstep : pairwise_step full_object tc fc st ((f, c), pose)
            = pure ⟨f, some pose, none, st.A, st.B⟩ := by
          simp [pairwise_step, hf, hc0]
        rw [hstep, except_pure_bind, ih]
        simp [conflict_spec, hf, hc0]
      · by_cases hc1 : c = fc
        · have hfc : ¬ (fc = tc) := fun h => hc0 (hc1.trans h)
          have hstep : pairwise_step full_object tc fc st ((f, c), pose)
              = pure ⟨f, none, none, st.A, st.B⟩ := by
            simp [pairwise_step, hf, hc0, hc1, hfc]
          rw [hstep, except_pure_bind, ih]
          simp [conflict_spec, hf, hc0, hc1, hfc]
        · have hstep : pairwise_step full_object tc fc st ((f, c), pose)
              = pure ⟨f, none, none, st.A, st.B⟩ := by
            simp [pairwise_step, hf, hc0, hc1]
          rw [hstep, except_pure_bind, ih]
          simp [conflict_spec, hf, hc0, hc1]

/-- C7 amended: against the flattened observation/pose parallel arrays, the
pairwise relative-pose computation (destination camera below source camera)
raises the duplicate-observation error exactly under `conflict_spec`: a
second destination-camera observation in a frame, or a second
source-camera observation after a pair was formed in that frame; duplicate
observations of other cameras pass through undetected. -/
theorem pairwise_conflict_characterization :
    ∀ (p : Procrustes) (poses : List Rt) (idx : List (Int × Nat)) (full_object : List V3)
      (icam_to icam_from : Nat),
      icam_to < icam_from → idx.length ≤ poses.length →
      isConflict (compute_pairwise_Rt p poses idx full_object icam_to icam_from)
        = conflict_spec icam_to icam_from idx (-1) false false := by
  intro p poses idx full_object tc fc hlt hlen
  rw [compute_pairwise_Rt_direct p poses idx full_object tc fc hlt]
  have hscan : isConflict (List.foldlM (pairwise_step full_object tc fc)
      ⟨-1, none, none, [], []⟩ (idx.zip poses)) = conflict_spec tc fc idx (-1) false false := by
    have h := pairwise_scan_conflict full_object tc fc (idx.zip poses)
      ⟨-1, none, none, [], []⟩
    rw [List.map_fst_zip idx poses hlen] at h
    exact h
  unfold pairwise_direct
  rw [isConflict_bind_pure _ p]
  exact hscan

/-- The duplicate-observation input of the C7 counterexample: frame 1
contains two observations of camera 2. -/
def idx_dup : List (Int × Nat) := [(0, 0), (0, 1), (1, 2), (1, 2)]

/-- Local poses of the duplicate-observation input. -/
def poses_dup : List Rt := [Rt.id, Rt.id, Rt.id, Rt.id]

/-- Some frame/camera pair occurs more than once in the list (some frame
contains more than one observation of the same camera). -/
def frame_has_duplicate_camera (idx : List (Int × Nat)) : Bool :=
  idx.any fun e => decide (2 ≤ idx.countP fun e2 => decide (e2 = e))

/-- Counterexample to C7 as stated: `idx_dup`'s frame 1 contains camera 2
twice, yet the 0-1 pairwise computation raises nothing and returns a pose —
duplicates of cameras other than the pair under consideration are not
detected. -/
theorem conflict_not_raised_on_duplicate :
    frame_has_duplicate_camera idx_dup = true ∧
    compute_pairwise_Rt pId poses_dup idx_dup obj3 0 1 = .ok Rt.id := by
  constructor
  · decide
  · rw [compute_pairwise_Rt_direct pId poses_dup idx_dup obj3 0 1 (by omega)]
    rfl

/-- The double-destination-camera input of the C7 witness: frame 0 contains
camera 0 twice. -/
def idx_cc : List (Int × Nat) := [(0, 0), (0, 0)]

/-- Local poses of the double-destination-camera input. -/
def poses_cc : List Rt := [Rt.id, Rt.id]

/-- Witness for C7 (amended): on a frame observing the destination camera
twice, the characterization applies and the error does fire. -/
theorem pairwise_conflict_characterization_witness :
    isConflict (compute_pairwise_Rt pId poses_cc idx_cc obj3 0 1)
      = conflict_spec 0 1 idx_cc (-1) false false ∧
    conflict_spec 0 1 idx_cc (-1) false false = true := by
  refine ⟨pairwise_conflict_characterization pId poses_cc idx_cc obj3 0 1 (by omega)
    (by decide), by decide⟩

/-! ## The edge-cost positivity assertion (C8)

The cost constant is `K = 100000`; an input in which one camera pair
co-observes 100000 frames drives the edge cost to 0 and fires the
assertion.  `pairList n` is such an input family: `n` frames, each observed
by cameras 0 and 1. -/

/-- The list of `m` frames starting at frame index `k`, each observed by cameras 0
and 1. -/
def pairListFrom (k : Nat) : Nat → List (Int × Nat)
  | 0 => []
  | m + 1 => ((k : Int), 0) :: ((k : Int), 1) :: pairListFrom (k + 1) m

/-- The list of `n` frames, each observed by cameras 0 and 1. -/
def pairList (n : Nat) : List (Int × Nat) := pairListFrom 0 n

/-- The connectivity matrix of two cameras sharing `j` frames. -/
def two_cam_mat (j : Nat) : ConnMat := [[0, j], [j, 0]]

theorem pairListFrom_length : ∀ (m k : Nat), (pairListFrom k m).length = 2 * m := by
  intro m
  induction m with
  | zero => intro k; rfl
  | succ m ih =>
    intro k
    simp only [pairListFrom, List.length_cons, ih (k + 1)]
    omega

theorem pairListFrom_getD_even : ∀ (m k j : Nat), j < m →
    (pairListFrom k m).getD (2 * j) (0, 0) = (((k + j : Nat) : Int), 0) := by
  intro m
  induction m with
  | zero => intro k j hj; omega
  | succ m ih =>
    intro k j hj
    cases j with
    | zero => rfl
    | succ j =>
      have h2 : 2 * (j + 1) = 2 * j + 1 + 1 := by ring
      rw [pairListFrom, h2, List.getD_cons_succ, List.getD_cons_succ,
        ih (k + 1) j (by omega)]
      congr 2
      omega

theorem pairListFrom_getD_odd : ∀ (m k j : Nat), j < m →
    (pairListFrom k m).getD (2 * j + 1) (0, 0) = (((k + j : Nat) : Int), 1) := by
  intro m
  induction m with
  | zero => intro k j hj; omega
  | succ m ih =>
    intro k j hj
    cases j with
    | zero => rfl
    | succ j =>
      have h2 : 2 * (j + 1) + 1 = (2 * j + 1) + 1 + 1 := by ring
      rw [pairListFrom, h2, List.getD_cons_succ, List.getD_cons_succ,
        ih (k + 1) j (by omega)]
      congr 2
      omega

theorem bump_two_cam (j : Nat) :
    bump (bump (two_cam_mat j) 0 1) 1 0 = two_cam_mat (j + 1) := rfl

theorem finish_frame_pairList (n j : Nat) (hj : j < n) (m : ConnMat) :
    finish_frame (pairList n) m (2 * j) (2 * j + 1) = bump (bump m 0 1) 1 0 := by
  unfold finish_frame
  have h1 : 2 * j + 1 - 2 * j = 1 := by omega
  rw [h1, List.range'_one, List.foldl_cons, List.foldl_nil, h1, List.range'_one,
    List.foldl_cons, List.foldl_nil]
  have he : (pairList n).getD (2 * j) (0, 0) = (((j : Nat) : Int), 0) := by
    have := pairListFrom_getD_even n 0 j hj
    simpa using this
  have ho : (pairList n).getD (2 * j + 1) (0, 0) = (((j : Nat) : Int), 1) := by
    have := pairListFrom_getD_odd n 0 j hj
    simpa using this
  rw [he, ho]

theorem connectivity_scan_pairList (n : Nat) :
    ∀ (m k : Nat) (i : Nat) (fcur istart : Int), k + 1 + m = n → i = 2 * k + 2 →
      fcur = ((k : Nat) : Int) → istart = ((2 * k : Nat) : Int) →
      connectivity_scan (pairList n) (pairListFrom (k + 1) m) i fcur istart (two_cam_mat k)
        = .ok (two_cam_mat (n - 1), ((2 * (n - 1) : Nat) : Int)) := by
  intro m
  induction m with
  | zero =>
    intro k i fcur istart hk hi hf hs
    subst hi hf hs
    have hk' : n - 1 = k := by omega
    rw [hk']
    rfl
  | succ m ih =>
    intro k i fcur istart hk hi hf hs
    subst hi hf hs
    rw [show pairListFrom (k + 1) (m + 1)
        = (((k + 1 : Nat) : Int), 0) :: (((k + 1 : Nat) : Int), 1) :: pairListFrom (k + 2) m
      from rfl]
    rw [connectivity_scan]
    rw [if_neg (by omega), if_pos (by omega), if_pos (by omega), Int.toNat_natCast]
    rw [show 2 * k + 2 - 1 = 2 * k + 1 from by omega]
    rw [finish_frame_pairList n k (by omega), bump_two_cam]
    rw [connectivity_scan]
    rw [if_neg (by omega), if_neg (by omega)]
    have := ih (k + 1) (2 * k + 2 + 1 + 1) (((k + 1 : Nat) : Int))
      (((2 * k + 2 : Nat) : Int)) (by omega) (by omega) (by push_cast; ring)
      (by push_cast; ring)
    convert this using 2

theorem compute_connectivity_pairList (n : Nat) (hn : 1 ≤ n) :
    compute_connectivity_matrix 2 (pairList n) = .ok (two_cam_mat n) := by
  obtain ⟨m, rfl⟩ : ∃ m, n = m + 1 := ⟨n - 1, by omega⟩
  have e : compute_connectivity_matrix 2 (pairList (m + 1))
      = Except.bind (connectivity_scan (pairList (m + 1)) (pairListFrom (0 + 1) m) 2
          ((0 : Nat) : Int) (((2 * 0 : Nat) : Int)) (two_cam_mat 0))
        (fun x => pure (if 0 ≤ x.2 then
            finish_frame (pairList (m + 1)) x.1 x.2.toNat ((pairList (m + 1)).length - 1)
          else x.1)) := rfl
  rw [e, connectivity_scan_pairList (m + 1) m 0 2 ((0 : Nat) : Int) (((2 * 0 : Nat) : Int))
    (by omega) (by omega) (by rfl) (by rfl)]
  show pure (if (0 : Int) ≤ ((2 * ((m + 1) - 1) : Nat) : Int) then
      finish_frame (pairList (m + 1)) (two_cam_mat ((m + 1) - 1))
        (((2 * ((m + 1) - 1) : Nat) : Int)).toNat ((pairList (m + 1)).length - 1)
    else two_cam_mat ((m + 1) - 1)) = Except.ok (two_cam_mat (m + 1))
  rw [if_pos (by omega), Int.toNat_natCast]
  rw [show (pairList (m + 1)).length - 1 = 2 * ((m + 1) - 1) + 1 from by
    rw [pairList, pairListFrom_length]; omega]
  rw [finish_frame_pairList (m + 1) ((m + 1) - 1) (by omega), bump_two_cam]
  rw [show (m + 1) - 1 + 1 = m + 1 from by omega]
  rfl

theorem Ncameras_pairList (n : Nat) (hn : 1 ≤ n) : Ncameras_of (pairList n) = 2 := by
  obtain ⟨m, rfl⟩ : ∃ m, n = m + 1 := ⟨n - 1, by omega⟩
  have key : ∀ (m k a : Nat), 1 ≤ a →
      (pairListFrom k m).foldl (fun a q => max a q.2) a = a := by
    intro m
    induction m with
    | zero => intro k a ha; rfl
    | succ m ih =>
      intro k a ha
      simp only [pairListFrom, List.foldl_cons]
      rw [Nat.max_zero, Nat.max_eq_left ha]
      exact ih (k + 1) a ha
  show (pairListFrom 0 (m + 1)).foldl (fun a q => max a q.2) 0 + 1 = 2
  simp only [pairListFrom, List.foldl_cons]
  rw [show max (max 0 0) 1 = 1 from rfl]
  rw [key m 1 1 (by omega)]

/-- C8 amended: the edge cost is `K − shared_frame_count` with `K = 100000`,
and it is strictly positive — the in-code assertion does not fire — exactly
for pairs sharing fewer than `K` frames; pairs sharing `K` or more frames
fire the assertion (see the counterexample theorem). -/
theorem edge_cost_positive_below_K :
    ∀ s : Nat, s < 100000 →
      compute_edge_cost s = .ok (100000 - (s : Int)) ∧ 0 < (100000 : Int) - (s : Int) := by
  intro s h
  constructor
  · unfold compute_edge_cost
    rw [if_pos (by omega)]
    rfl
  · omega

/-- Counterexample to C8 as stated: the valid input `pairList 100000`
(100000 frames each co-observed by cameras 0 and 1) produces a connectivity
edge with `shared_frame_count = 100000 = K`, for which the edge cost is not
strictly positive: `compute_edge_cost` fails on it, and the whole solver
run aborts with the failed assertion when the search relaxes that edge. -/
theorem edge_cost_assertion_fires :
    compute_connectivity_matrix 2 (pairList 100000) = .ok [[0, 100000], [100000, 0]] ∧
    compute_edge_cost 100000 = .error .assertionFailed ∧
    _estimate_camera_poses pId [] (pairList 100000) obj3 = .error .assertionFailed := by
  refine ⟨compute_connectivity_pairList 100000 (by omega), by rfl, ?_⟩
  unfold _estimate_camera_poses
  rw [Ncameras_pairList 100000 (by omega)]
  show Except.bind (compute_connectivity_matrix 2 (pairList 100000)) _
      = Except.error CalErr.assertionFailed
  rw [compute_connectivity_pairList 100000 (by omega)]
  rfl

/-- Witness for C8 (amended): a pair sharing 42 frames gets the positive
cost `100000 - 42`. -/
theorem edge_cost_positive_below_K_witness :
    compute_edge_cost 42 = .ok (100000 - ((42 : Nat) : Int))
      ∧ 0 < (100000 : Int) - ((42 : Nat) : Int) :=
  edge_cost_positive_below_K 42 (by omega)

end MrcalSeed
